import Mathlib

/-!
Shallow embedding of `src/clustering/administration/metadata_change_handler.hpp`
(template class `metadata_change_handler_t<metadata_t>` and its nested client
class `metadata_change_request_t`).

Modelling conventions, all translated from the source file:
- The metadata type is a type parameter `M`; the semilattice view is reduced to
  the store value it holds, and its `join` operation is an explicit function
  parameter `join : M -> M -> M` (the algebra is external to this file).
- A `cond_t` is a one-shot boolean flag; `pulse_if_not_already_pulsed` sets it
  to `true`, `is_pulsed` reads it.  The handler field `coro_invalid_conditions`
  (a `std::set` of pointers to the per-session conditions) is modelled as an
  association list from a session identifier (standing for the pointer) to the
  flag value.
- Mailbox addresses are natural numbers; a possibly-null result address is an
  `Option Nat` (`result_mailbox_t::address_t()` in the abandon message is the
  null address `none`).
- Each routine of the source is a pure function from its inputs (including the
  resolution of each `wait_any_t` race) to its new state, the messages it sends
  and, where the claims need ordering, the ordered list of actions it performs.
-/

/-- Wire message `result_msg_t` with its single field `value`. -/
structure result_msg_t where
  value : Bool
deriving Repr, DecidableEq

/-- Wire message `commit_msg_t`: `commit` flag, `metadata`, `result_mailbox`
address (modelled as `Option Nat`; `none` is the default-constructed null
address used by the abandonment path). -/
structure commit_msg_t (M : Type) where
  commit : Bool
  metadata : M
  result_mailbox : Option Nat
deriving Repr

/-- Wire message `ack_msg_t`: the metadata snapshot and the per-session commit
mailbox address. -/
structure ack_msg_t (M : Type) where
  metadata : M
  commit_mailbox_address : Nat
deriving Repr

/-- State of a `metadata_change_handler_t<M>`: the store value behind the
`metadata_view` and the registry `coro_invalid_conditions` of outstanding
session invalidation flags, keyed by session identifier. -/
structure metadata_change_handler_t (M : Type) where
  store : M
  coro_invalid_conditions : List (Nat × Bool)
deriving Repr

/-- `cond_t::is_pulsed` of the invalidation condition registered under `sid`:
the flag of the first registry entry with that key, `false` when absent (a
never-pulsed condition). -/
def is_pulsed (reg : List (Nat × Bool)) (sid : Nat) : Bool :=
  match reg.find? (fun s => s.1 == sid) with
  | some s => s.2
  | none => false

/-- `metadata_change_handler_t::update` (source lines 64-70): pulse every
invalidation condition in `coro_invalid_conditions`, then join `m` into the
store via the view. -/
def metadata_change_handler_t.update {M : Type} (join : M → M → M)
    (h : metadata_change_handler_t M) (m : M) : metadata_change_handler_t M :=
  { store := join h.store m
    coro_invalid_conditions :=
      h.coro_invalid_conditions.map (fun s => (s.1, true)) }

/-- One observable action of the server-side session coroutine, in program
order. `spawn_result` is the `coro_t::spawn_sometime` of `send_result`; the
actual delivery of the Result is deferred to after the coroutine finishes
(`spawn_sometime` schedules the reply task on the drainer, it does not run it
inline). -/
inductive sevent (M : Type) where
  | register (sid : Nat)
  | send_ack (snapshot : M) (commit_addr : Nat)
  | store_join (m : M)
  | spawn_result (addr : Option Nat) (success : Bool)
  | erase (sid : Nat)
deriving Repr, DecidableEq

/-- Predicate picking out the deregistration event of session `sid`. -/
def sevent.is_erase {M : Type} (sid : Nat) : sevent M → Bool
  | .erase s => s == sid
  | _ => false

/-- `metadata_change_handler_t::handle_commit` (source lines 172-188) for the
session registered under `sid`: when `msg.commit` is set, latch
`success = !invalid_condition->is_pulsed()`, apply `update(msg.metadata)` only
when `success`, and spawn `send_result(success, msg.result_mailbox)`; when
`msg.commit` is clear (abandonment) do nothing.  Returns the new handler
state, the ordered actions performed, and the spawned Result
(address, success) if any.  (`done->pulse()` is represented by the caller
resuming.) -/
def metadata_change_handler_t.handle_commit {M : Type} (join : M → M → M)
    (h : metadata_change_handler_t M) (sid : Nat) (msg : commit_msg_t M) :
    metadata_change_handler_t M × List (sevent M) × Option (Option Nat × Bool) :=
  if msg.commit then
    if is_pulsed h.coro_invalid_conditions sid then
      (h, [sevent.spawn_result msg.result_mailbox false],
        some (msg.result_mailbox, false))
    else
      (h.update join msg.metadata,
        [sevent.store_join msg.metadata,
         sevent.spawn_result msg.result_mailbox true],
        some (msg.result_mailbox, true))
  else
    (h, [], none)

/-- Resolution of the session coroutine wait `wait_any_t(&commit_done,
&dc_watcher)`: either a commit message arrived on the commit mailbox, or the
disconnect watcher fired first. -/
inductive wait_outcome (M : Type) where
  | commit (msg : commit_msg_t M)
  | disconnect
deriving Repr

/-- Output of one full run of the server-side session coroutine. -/
structure coro_out (M : Type) where
  handler : metadata_change_handler_t M
  events : List (sevent M)
  result : Option (Option Nat × Bool)
deriving Repr

/-- `metadata_change_handler_t::remote_change_request_coro` (source lines
153-170), one full session: insert the invalidation condition into the
registry, send the Ack carrying the current store snapshot and the commit
mailbox address, wait.  `localUpdates` are the arguments of the handler-local
`update()` calls that interleave during the wait, in order; `outcome` is how
the wait resolves.  On a commit message, `handle_commit` runs before the
coroutine resumes; on disconnect nothing further happens.  Either way the
condition is erased from the registry before the coroutine returns. -/
def metadata_change_handler_t.remote_change_request_coro {M : Type}
    (join : M → M → M) (h : metadata_change_handler_t M)
    (sid : Nat) (commit_addr : Nat)
    (localUpdates : List M) (outcome : wait_outcome M) : coro_out M :=
  let h1 : metadata_change_handler_t M :=
    { h with coro_invalid_conditions :=
        (sid, false) :: h.coro_invalid_conditions }
  let h2 := localUpdates.foldl (fun st u => st.update join u) h1
  match outcome with
  | .disconnect =>
      { handler := { h2 with coro_invalid_conditions :=
            h2.coro_invalid_conditions.filter (fun s => !(s.1 == sid)) }
        events := [sevent.register sid,
          sevent.send_ack h1.store commit_addr] ++ [] ++ [sevent.erase sid]
        result := none }
  | .commit msg =>
      let hc := h2.handle_commit join sid msg
      { handler := { hc.1 with coro_invalid_conditions :=
            hc.1.coro_invalid_conditions.filter (fun s => !(s.1 == sid)) }
        events := [sevent.register sid,
          sevent.send_ack h1.store commit_addr] ++ hc.2.1 ++ [sevent.erase sid]
        result := hc.2.2 }

/-- Events of the handler destructor (source lines 50-52 plus the implicit
member destruction). `drain` is the `auto_drainer_t` member awaiting all
spawned session and reply tasks; `release` is the release of the remaining
handler state.  Modelled from the spec for the drainer part (the
`auto_drainer_t` implementation is outside this file): member destruction
runs the drainer before the rest of the state is released. -/
inductive dtor_event where
  | drain
  | release
deriving Repr, DecidableEq

/-- Handler destructor: `guarantee(coro_invalid_conditions.empty())` then
member destruction.  `none` models the fatal (non-recoverable) guarantee
failure; otherwise the drain runs before the state is released. -/
def metadata_change_handler_t.destruct {M : Type}
    (h : metadata_change_handler_t M) : Option (List dtor_event) :=
  if h.coro_invalid_conditions.isEmpty then
    some [dtor_event.drain, dtor_event.release]
  else
    none

/-- Client-side state of a constructed `metadata_change_request_t`. -/
structure metadata_change_request_t (M : Type) where
  interest_acquired : Bool
  remote_metadata : M
  commit_mailbox_address : Nat
deriving Repr

/-- `metadata_change_request_t` constructor (source lines 75-92).  Inputs are
the state of the two raced conditions when `waiter.wait()` returns:
`ackReceived` is the Ack captured by `handle_ack` if one arrived (`handle_ack`
pulses `done` after storing the snapshot and commit address), `dcPulsed` is
`dc_watcher.is_pulsed()`.  The disconnect check comes first: construction
throws `resource_lost_exc_t` (the `Except.error`) whenever the watcher is
pulsed, and only otherwise does the captured Ack produce the object, with
`interest_acquired` initialised to `true`. -/
def metadata_change_request_t.construct {M : Type}
    (ackReceived : Option (ack_msg_t M)) (dcPulsed : Bool) :
    Except Unit (metadata_change_request_t M) :=
  if dcPulsed then
    Except.error ()
  else
    match ackReceived with
    | some ack =>
        Except.ok { interest_acquired := true
                    remote_metadata := ack.metadata
                    commit_mailbox_address := ack.commit_mailbox_address }
    | none => Except.error ()

/-- `metadata_change_request_t::update` (source lines 105-122): clear
`interest_acquired`, send `commit_msg_t{true, metadata, result_mailbox}` to
the commit address, wait on the result promise raced with the disconnect
watcher.  `result_promise` is the promise contents when the wait returns
(`none` when no Result arrived, i.e. the peer disconnected first).
`try_get_value` succeeding returns the carried boolean; otherwise the call
returns `false`.  Returns the new client state, the Commit sent, and the
boolean return value — the function never throws. -/
def metadata_change_request_t.update {M : Type}
    (r : metadata_change_request_t M) (metadata : M) (result_addr : Nat)
    (result_promise : Option result_msg_t) :
    metadata_change_request_t M × commit_msg_t M × Bool :=
  ({ r with interest_acquired := false },
   { commit := true, metadata := metadata, result_mailbox := some result_addr },
   match result_promise with
   | some result => result.value
   | none => false)

/-- `metadata_change_request_t` destructor (source lines 94-99): when
`interest_acquired` is still set (no `update` call happened), send the
abandonment message `commit_msg_t{false, metadata_t(), null address}`;
otherwise send nothing.  Returns the list of Commits sent. -/
def metadata_change_request_t.destruct {M : Type} [Inhabited M]
    (r : metadata_change_request_t M) : List (commit_msg_t M) :=
  if r.interest_acquired then
    [{ commit := false, metadata := default, result_mailbox := none }]
  else
    []

/-- Whole-lifetime Commit traffic of one constructed change request: an
optional single `update` call (metadata, result address, promise contents at
the end of its wait) followed by destruction.  The destructor runs on every
exit path (C++ scoped destruction). -/
def metadata_change_request_t.lifecycle {M : Type} [Inhabited M]
    (r : metadata_change_request_t M)
    (upd : Option (M × Nat × Option result_msg_t)) : List (commit_msg_t M) :=
  match upd with
  | none => r.destruct
  | some (m, a, w) =>
      [(r.update m a w).2.1] ++ (r.update m a w).1.destruct

/-! ### Registry helper lemmas -/

/-- The store after a handler-local update is the join of the old store with
the update argument. -/
theorem metadata_change_handler_t.update_store {M : Type} (join : M → M → M)
    (h : metadata_change_handler_t M) (m : M) :
    (h.update join m).store = join h.store m := rfl

/-- A handler-local update does not change the set of registered session
identifiers. -/
theorem metadata_change_handler_t.update_keys {M : Type} (join : M → M → M)
    (h : metadata_change_handler_t M) (m : M) :
    (h.update join m).coro_invalid_conditions.map Prod.fst
      = h.coro_invalid_conditions.map Prod.fst := by
  simp [metadata_change_handler_t.update]

/-- After a handler-local update every registered invalidation flag is set. -/
theorem metadata_change_handler_t.update_flag {M : Type} (join : M → M → M)
    (h : metadata_change_handler_t M) (m : M) :
    ∀ s ∈ (h.update join m).coro_invalid_conditions, s.2 = true := by
  intro s hs
  simp only [metadata_change_handler_t.update, List.mem_map] at hs
  obtain ⟨a, _, rfl⟩ := hs
  rfl

/-- Reading the invalidation flag at the head of the registry. -/
theorem is_pulsed_cons_self (reg : List (Nat × Bool)) (sid : Nat) (b : Bool) :
    is_pulsed ((sid, b) :: reg) sid = b := by
  simp [is_pulsed]

/-- A registered flag in an all-set registry reads as set. -/
theorem is_pulsed_of_all_true : ∀ (reg : List (Nat × Bool)) (sid : Nat),
    sid ∈ reg.map Prod.fst → (∀ s ∈ reg, s.2 = true) → is_pulsed reg sid = true := by
  intro reg
  induction reg with
  | nil => intro sid hmem _; simp at hmem
  | cons a l ih =>
    intro sid hmem hall
    by_cases heq : (a.1 == sid) = true
    · have hfind : List.find? (fun s => s.1 == sid) (a :: l) = some a :=
        List.find?_cons_of_pos _ heq
      simpa [is_pulsed, hfind] using hall a (List.mem_cons_self a l)
    · have hfind : List.find? (fun s => s.1 == sid) (a :: l)
          = List.find? (fun s => s.1 == sid) l :=
        List.find?_cons_of_neg _ heq
      have hmem' : sid = a.1 ∨ sid ∈ l.map Prod.fst := by simpa using hmem
      have hmem2 : sid ∈ l.map Prod.fst := by
        rcases hmem' with h1 | h1
        · exact absurd (by simp [h1]) heq
        · exact h1
      have hall2 : ∀ s ∈ l, s.2 = true := fun s hs => hall s (List.mem_cons_of_mem a hs)
      simpa [is_pulsed, hfind] using ih sid hmem2 hall2

/-- Folding handler-local updates over the handler folds the joins over the
store. -/
theorem foldl_update_store {M : Type} (join : M → M → M) (l : List M)
    (h : metadata_change_handler_t M) :
    (l.foldl (fun st u => st.update join u) h).store = l.foldl join h.store := by
  induction l generalizing h with
  | nil => rfl
  | cons u us ih => exact ih (h.update join u)

/-- Folding handler-local updates does not change the registered session
identifiers. -/
theorem foldl_update_keys {M : Type} (join : M → M → M) (l : List M)
    (h : metadata_change_handler_t M) :
    (l.foldl (fun st u => st.update join u) h).coro_invalid_conditions.map Prod.fst
      = h.coro_invalid_conditions.map Prod.fst := by
  induction l generalizing h with
  | nil => rfl
  | cons u us ih =>
    exact (ih (h.update join u)).trans (metadata_change_handler_t.update_keys join h u)

/-- Folding handler-local updates preserves an all-set registry. -/
theorem foldl_update_all_true {M : Type} (join : M → M → M) (l : List M)
    (h : metadata_change_handler_t M)
    (hall : ∀ s ∈ h.coro_invalid_conditions, s.2 = true) :
    ∀ s ∈ (l.foldl (fun st u => st.update join u) h).coro_invalid_conditions,
      s.2 = true := by
  induction l generalizing h with
  | nil => exact hall
  | cons u us ih => exact ih (h.update join u) (metadata_change_handler_t.update_flag join h u)

/-- After at least one handler-local update, every session registered at the
time of the first update reads as invalidated. -/
theorem is_pulsed_after_updates {M : Type} (join : M → M → M) (u : M)
    (us : List M) (h : metadata_change_handler_t M) (sid : Nat)
    (hmem : sid ∈ h.coro_invalid_conditions.map Prod.fst) :
    is_pulsed ((u :: us).foldl (fun st x => st.update join x)
      h).coro_invalid_conditions sid = true := by
  apply is_pulsed_of_all_true
  · rw [List.foldl_cons, foldl_update_keys, metadata_change_handler_t.update_keys]
    exact hmem
  · rw [List.foldl_cons]
    exact foldl_update_all_true join us (h.update join u)
      (metadata_change_handler_t.update_flag join h u)

/-! ### Claims -/

/-- Claim C1: for a session whose wait ends with `Commit{commit := true}`, if no
handler-local update interleaved between the Ack and the commit, the spawned
Result carries `true` and the store afterwards equals the join of the store at
commit time with the committed metadata; if at least one local update
interleaved, the Result carries `false`, the store is exactly the fold of the
interleaved updates (unaffected by this commit attempt), and a client `update`
that receives that Result returns `false`. -/
theorem c1_commit_outcome {M : Type} (join : M → M → M)
    (h : metadata_change_handler_t M) (sid commit_addr : Nat) (m : M)
    (addr : Option Nat) (localUpdates : List M) :
    (localUpdates = [] →
      (h.remote_change_request_coro join sid commit_addr localUpdates
          (wait_outcome.commit ⟨true, m, addr⟩)).result = some (addr, true) ∧
      (h.remote_change_request_coro join sid commit_addr localUpdates
          (wait_outcome.commit ⟨true, m, addr⟩)).handler.store = join h.store m) ∧
    (localUpdates ≠ [] →
      (h.remote_change_request_coro join sid commit_addr localUpdates
          (wait_outcome.commit ⟨true, m, addr⟩)).result = some (addr, false) ∧
      (h.remote_change_request_coro join sid commit_addr localUpdates
          (wait_outcome.commit ⟨true, m, addr⟩)).handler.store
        = localUpdates.foldl join h.store ∧
      (∀ (r : metadata_change_request_t M) (a2 : Nat),
        (r.update m a2 (some ⟨false⟩)).2.2 = false)) := by
  constructor
  · rintro rfl
    constructor
    · simp [metadata_change_handler_t.remote_change_request_coro,
        metadata_change_handler_t.handle_commit, is_pulsed_cons_self]
    · simp [metadata_change_handler_t.remote_change_request_coro,
        metadata_change_handler_t.handle_commit, is_pulsed_cons_self,
        metadata_change_handler_t.update]
  · intro hne
    cases localUpdates with
    | nil => exact absurd rfl hne
    | cons u us =>
      have hpul := is_pulsed_after_updates join u us
        { h with coro_invalid_conditions := (sid, false) :: h.coro_invalid_conditions }
        sid (by simp)
      simp only [List.foldl_cons] at hpul
      refine ⟨?_, ?_, ?_⟩
      · simp [metadata_change_handler_t.remote_change_request_coro,
          metadata_change_handler_t.handle_commit, hpul]
      · simp [metadata_change_handler_t.remote_change_request_coro,
          metadata_change_handler_t.handle_commit, hpul, foldl_update_store,
          metadata_change_handler_t.update_store]
      · intro r a2
        rfl

/-- Claim C1 witness: both branches of `c1_commit_outcome` exercised at
concrete inputs (store 1, committed metadata 4, join is `Nat.max`). -/
theorem c1_commit_outcome_witness :
    (((⟨1, []⟩ : metadata_change_handler_t Nat).remote_change_request_coro
        Nat.max 0 5 [] (wait_outcome.commit ⟨true, 4, some 9⟩)).result
      = some (some 9, true) ∧
     ((⟨1, []⟩ : metadata_change_handler_t Nat).remote_change_request_coro
        Nat.max 0 5 [] (wait_outcome.commit ⟨true, 4, some 9⟩)).handler.store
      = Nat.max 1 4) ∧
    (((⟨1, []⟩ : metadata_change_handler_t Nat).remote_change_request_coro
        Nat.max 0 5 [7] (wait_outcome.commit ⟨true, 4, some 9⟩)).result
      = some (some 9, false) ∧
     ((⟨1, []⟩ : metadata_change_handler_t Nat).remote_change_request_coro
        Nat.max 0 5 [7] (wait_outcome.commit ⟨true, 4, some 9⟩)).handler.store
      = [7].foldl Nat.max 1 ∧
     (∀ (r : metadata_change_request_t Nat) (a2 : Nat),
        (r.update 4 a2 (some ⟨false⟩)).2.2 = false)) :=
  ⟨(c1_commit_outcome Nat.max ⟨1, []⟩ 0 5 4 (some 9) []).1 rfl,
   (c1_commit_outcome Nat.max ⟨1, []⟩ 0 5 4 (some 9) [7]).2 (by simp)⟩

/-- If a registered flag reads as set, its session identifier is registered. -/
theorem mem_keys_of_is_pulsed {reg : List (Nat × Bool)} {sid : Nat}
    (hp : is_pulsed reg sid = true) : sid ∈ reg.map Prod.fst := by
  unfold is_pulsed at hp
  cases hfind : reg.find? (fun s => s.1 == sid) with
  | none => rw [hfind] at hp; exact absurd hp (by simp)
  | some s =>
    have h1 := List.find?_some hfind
    have h2 : s ∈ reg := List.mem_of_find?_eq_some hfind
    have h3 : s.1 = sid := by simpa using h1
    exact h3 ▸ List.mem_map_of_mem Prod.fst h2

/-- A set flag stays set across a handler-local update. -/
theorem is_pulsed_update_of_is_pulsed {M : Type} (join : M → M → M)
    (h : metadata_change_handler_t M) (m : M) (sid : Nat)
    (hp : is_pulsed h.coro_invalid_conditions sid = true) :
    is_pulsed (h.update join m).coro_invalid_conditions sid = true :=
  is_pulsed_of_all_true _ _
    (by rw [metadata_change_handler_t.update_keys]; exact mem_keys_of_is_pulsed hp)
    (metadata_change_handler_t.update_flag join h m)

/-- Erasing a session identifier leaves no entry with that identifier. -/
theorem not_mem_keys_filter (reg : List (Nat × Bool)) (sid : Nat) :
    sid ∉ (reg.filter (fun s => !(s.1 == sid))).map Prod.fst := by
  intro hmem
  simp only [List.mem_map, List.mem_filter] at hmem
  obtain ⟨s, ⟨_, hs⟩, heq⟩ := hmem
  rw [heq] at hs
  simp at hs

/-- The last element of a cons of an append ending in a singleton. -/
theorem getLast?_cons_append_singleton {A : Type} (x : A) (l : List A) (e : A) :
    (x :: (l ++ [e])).getLast? = some e := by
  induction l generalizing x with
  | nil => rfl
  | cons y ys ih =>
    rw [List.cons_append, List.getLast?_cons_cons]
    exact ih y

/-- The actions of `handle_commit` never deregister a session. -/
theorem handle_commit_no_erase {M : Type} (join : M → M → M)
    (h : metadata_change_handler_t M) (sid2 : Nat) (msg : commit_msg_t M)
    (sid : Nat) :
    (h.handle_commit join sid2 msg).2.1.countP (sevent.is_erase sid) = 0 := by
  unfold metadata_change_handler_t.handle_commit
  split
  · split <;> simp [sevent.is_erase]
  · simp

/-- Claim C2: the store is joined only by a resolved `Commit{commit := true}`
of a non-invalidated session; a `Commit{commit := false}` (abandonment) spawns
no Result and sends none, yet still deregisters the session and leaves the
store equal to the fold of the interleaved local updates, and a peer
disconnect likewise sends no Result and leaves the store untouched by the
session. -/
theorem c2_join_only_on_success {M : Type} (join : M → M → M)
    (h : metadata_change_handler_t M) (sid commit_addr : Nat)
    (localUpdates : List M) (outcome : wait_outcome M) :
    ((∃ u, sevent.store_join u ∈
        (h.remote_change_request_coro join sid commit_addr localUpdates
          outcome).events) ↔
      (∃ m a, outcome = wait_outcome.commit ⟨true, m, a⟩ ∧ localUpdates = [])) ∧
    (∀ m a, outcome = wait_outcome.commit ⟨false, m, a⟩ →
      (h.remote_change_request_coro join sid commit_addr localUpdates
        outcome).result = none ∧
      (∀ a2 b, sevent.spawn_result a2 b ∉
        (h.remote_change_request_coro join sid commit_addr localUpdates
          outcome).events) ∧
      sevent.erase sid ∈
        (h.remote_change_request_coro join sid commit_addr localUpdates
          outcome).events ∧
      (h.remote_change_request_coro join sid commit_addr localUpdates
        outcome).handler.store = localUpdates.foldl join h.store) ∧
    (outcome = wait_outcome.disconnect →
      (h.remote_change_request_coro join sid commit_addr localUpdates
        outcome).result = none ∧
      (h.remote_change_request_coro join sid commit_addr localUpdates
        outcome).handler.store = localUpdates.foldl join h.store) := by
  cases outcome with
  | disconnect =>
    refine ⟨?_, ?_, ?_⟩
    · simp [metadata_change_handler_t.remote_change_request_coro]
    · intro m a hcontra
      exact absurd hcontra (by simp)
    · intro _
      constructor
      · simp [metadata_change_handler_t.remote_change_request_coro]
      · simp [metadata_change_handler_t.remote_change_request_coro,
          foldl_update_store]
  | commit msg =>
    obtain ⟨c, mm, aa⟩ := msg
    cases c with
    | false =>
      refine ⟨?_, ?_, ?_⟩
      · simp [metadata_change_handler_t.remote_change_request_coro,
          metadata_change_handler_t.handle_commit]
      · intro m a _
        refine ⟨?_, ?_, ?_, ?_⟩
        · simp [metadata_change_handler_t.remote_change_request_coro,
            metadata_change_handler_t.handle_commit]
        · simp [metadata_change_handler_t.remote_change_request_coro,
            metadata_change_handler_t.handle_commit]
        · simp [metadata_change_handler_t.remote_change_request_coro,
            metadata_change_handler_t.handle_commit]
        · simp [metadata_change_handler_t.remote_change_request_coro,
            metadata_change_handler_t.handle_commit, foldl_update_store]
      · intro hcontra
        exact absurd hcontra (by simp)
    | true =>
      cases localUpdates with
      | nil =>
        refine ⟨?_, ?_, ?_⟩
        · simp [metadata_change_handler_t.remote_change_request_coro,
            metadata_change_handler_t.handle_commit, is_pulsed_cons_self]
        · intro m a hcontra
          simp at hcontra
        · intro hcontra
          exact absurd hcontra (by simp)
      | cons u us =>
        have hpul := is_pulsed_after_updates join u us
          { h with coro_invalid_conditions :=
              (sid, false) :: h.coro_invalid_conditions } sid (by simp)
        simp only [List.foldl_cons] at hpul
        refine ⟨?_, ?_, ?_⟩
        · simp [metadata_change_handler_t.remote_change_request_coro,
            metadata_change_handler_t.handle_commit, hpul]
        · intro m a hcontra
          simp at hcontra
        · intro hcontra
          exact absurd hcontra (by simp)

/-- Claim C2 witness: the abandonment branch of `c2_join_only_on_success`
exercised at a concrete input. -/
theorem c2_join_only_on_success_witness :
    ((⟨1, []⟩ : metadata_change_handler_t Nat).remote_change_request_coro
        Nat.max 0 5 [7] (wait_outcome.commit ⟨false, 4, some 9⟩)).result = none ∧
    (∀ a2 b, sevent.spawn_result a2 b ∉
      ((⟨1, []⟩ : metadata_change_handler_t Nat).remote_change_request_coro
        Nat.max 0 5 [7] (wait_outcome.commit ⟨false, 4, some 9⟩)).events) ∧
    sevent.erase 0 ∈
      ((⟨1, []⟩ : metadata_change_handler_t Nat).remote_change_request_coro
        Nat.max 0 5 [7] (wait_outcome.commit ⟨false, 4, some 9⟩)).events ∧
    ((⟨1, []⟩ : metadata_change_handler_t Nat).remote_change_request_coro
        Nat.max 0 5 [7] (wait_outcome.commit ⟨false, 4, some 9⟩)).handler.store
      = [7].foldl Nat.max 1 :=
  (c2_join_only_on_success Nat.max ⟨1, []⟩ 0 5 [7]
    (wait_outcome.commit ⟨false, 4, some 9⟩)).2.1 4 (some 9) rfl

/-- Claim C3: a handler-local update sets the invalidation flag of every
session registered at the time of the call; a flag already set stays set both
across further handler-local updates and across `handle_commit` resolutions
(one-shot, monotone). -/
theorem c3_invalidation_flags {M : Type} (join : M → M → M)
    (h : metadata_change_handler_t M) (m : M) (sid : Nat) :
    (sid ∈ h.coro_invalid_conditions.map Prod.fst →
      is_pulsed (h.update join m).coro_invalid_conditions sid = true) ∧
    (is_pulsed h.coro_invalid_conditions sid = true →
      is_pulsed (h.update join m).coro_invalid_conditions sid = true) ∧
    (∀ (msg : commit_msg_t M) (sid2 : Nat),
      is_pulsed h.coro_invalid_conditions sid = true →
      is_pulsed (h.handle_commit join sid2 msg).1.coro_invalid_conditions sid
        = true) := by
  refine ⟨?_, ?_, ?_⟩
  · intro hmem
    exact is_pulsed_of_all_true _ _
      (by rw [metadata_change_handler_t.update_keys]; exact hmem)
      (metadata_change_handler_t.update_flag join h m)
  · exact is_pulsed_update_of_is_pulsed join h m sid
  · intro msg sid2 hp
    unfold metadata_change_handler_t.handle_commit
    split
    · split
      · exact hp
      · exact is_pulsed_update_of_is_pulsed join h msg.metadata sid hp
    · exact hp

/-- Claim C3 witness: all three parts of `c3_invalidation_flags` at concrete
registries. -/
theorem c3_invalidation_flags_witness :
    is_pulsed ((⟨0, [(3, false), (4, false)]⟩ :
      metadata_change_handler_t Nat).update Nat.max 1).coro_invalid_conditions 3
      = true ∧
    is_pulsed ((⟨0, [(3, true)]⟩ :
      metadata_change_handler_t Nat).update Nat.max 1).coro_invalid_conditions 3
      = true ∧
    is_pulsed ((⟨0, [(3, true), (5, false)]⟩ :
      metadata_change_handler_t Nat).handle_commit Nat.max 5
        ⟨true, 2, none⟩).1.coro_invalid_conditions 3 = true :=
  ⟨(c3_invalidation_flags Nat.max ⟨0, [(3, false), (4, false)]⟩ 1 3).1 (by decide),
   (c3_invalidation_flags Nat.max ⟨0, [(3, true)]⟩ 1 3).2.1 (by decide),
   (c3_invalidation_flags Nat.max ⟨0, [(3, true), (5, false)]⟩ 1 3).2.2
     ⟨true, 2, none⟩ 5 (by decide)⟩

/-- Claim C4: on every run of the session coroutine, the invalidation flag is
registered before the Ck is sent (the first two actions, in order, are the
registration and the Ack carrying the registration-time store snapshot); the
session is deregistered exactly once; the deregistration is the last action of
the coroutine, so it completes before the deferred Result reply (or the silent
drop) does; and afterwards the session identifier is no longer in the
registry. -/
theorem c4_registry_lifecycle {M : Type} (join : M → M → M)
    (h : metadata_change_handler_t M) (sid commit_addr : Nat)
    (localUpdates : List M) (outcome : wait_outcome M) :
    ((h.remote_change_request_coro join sid commit_addr localUpdates
        outcome).events.take 2
      = [sevent.register sid, sevent.send_ack h.store commit_addr]) ∧
    ((h.remote_change_request_coro join sid commit_addr localUpdates
        outcome).events.countP (sevent.is_erase sid) = 1) ∧
    ((h.remote_change_request_coro join sid commit_addr localUpdates
        outcome).events.getLast? = some (sevent.erase sid)) ∧
    sid ∉ ((h.remote_change_request_coro join sid commit_addr localUpdates
        outcome).handler.coro_invalid_conditions.map Prod.fst) := by
  cases outcome with
  | disconnect =>
    refine ⟨?_, ?_, ?_, ?_⟩
    · simp [metadata_change_handler_t.remote_change_request_coro]
    · simp [metadata_change_handler_t.remote_change_request_coro,
        sevent.is_erase]
    · simp [metadata_change_handler_t.remote_change_request_coro]
    · exact not_mem_keys_filter _ sid
  | commit msg =>
    refine ⟨?_, ?_, ?_, ?_⟩
    · simp [metadata_change_handler_t.remote_change_request_coro]
    · have hmid := handle_commit_no_erase join
        ((localUpdates.foldl (fun st u => st.update join u)
          { h with coro_invalid_conditions :=
              (sid, false) :: h.coro_invalid_conditions })) sid msg sid
      simp [metadata_change_handler_t.remote_change_request_coro,
        List.countP_append, hmid, sevent.is_erase]
    · simp [metadata_change_handler_t.remote_change_request_coro,
        getLast?_cons_append_singleton]
    · exact not_mem_keys_filter _ sid

/-- Claim C5: the client `update` returns the boolean carried by the Result
message when one arrived, and returns `false` when the peer disconnected
before a Result arrived; a disconnect and an invalidation-based rejection
produce the same plain `false` return and the function returns a boolean in
every case (no distinct error, no exception). -/
theorem c5_client_update_return {M : Type} (r : metadata_change_request_t M)
    (m : M) (a : Nat) :
    (∀ b, (r.update m a (some ⟨b⟩)).2.2 = b) ∧
    ((r.update m a none).2.2 = false) ∧
    ((r.update m a (some ⟨false⟩)).2.2 = (r.update m a none).2.2) ∧
    (∀ w, (r.update m a w).2.2 = (w.map result_msg_t.value).getD false) := by
  refine ⟨fun b => rfl, rfl, rfl, fun w => ?_⟩
  cases w with
  | none => rfl
  | some res => rfl

/-- Claim C6 counterexample: at an input where the Ack has already arrived and
been processed but the disconnect watcher is also pulsed when the wait
completes, construction still fails with the resource-lost error — the claim
as stated allows the error only when the peer disconnects before an Ack
arrives. -/
theorem c6_counterexample :
    metadata_change_request_t.construct (M := Nat) (some ⟨7, 3⟩) true
      = Except.error () ∧
    (some (⟨7, 3⟩ : ack_msg_t Nat)).isSome = true :=
  ⟨rfl, rfl⟩

/-- Claim C6 (amended): the resource-lost error is surfaced only from
construction, exactly when the disconnect watcher is pulsed when the
construction wait completes (even if an Ack already arrived); when the
watcher is not pulsed, the constructor captures the Ack snapshot and the
session commit address and sets interest-acquired to true. -/
theorem c6_resource_lost {M : Type} (ackReceived : Option (ack_msg_t M))
    (dcPulsed : Bool) (hdone : ackReceived.isSome = true ∨ dcPulsed = true) :
    ((metadata_change_request_t.construct ackReceived dcPulsed
        = Except.error ()) ↔ dcPulsed = true) ∧
    (∀ ack, dcPulsed = false → ackReceived = some ack →
      metadata_change_request_t.construct ackReceived dcPulsed
        = Except.ok ⟨true, ack.metadata, ack.commit_mailbox_address⟩) := by
  constructor
  · cases dcPulsed with
    | true => simp [metadata_change_request_t.construct]
    | false =>
      rcases hdone with hs | hs
      · obtain ⟨a, ha⟩ := Option.isSome_iff_exists.mp hs
        subst ha
        simp [metadata_change_request_t.construct]
      · exact absurd hs (by simp)
  · intro ack hdc hack
    subst hdc
    subst hack
    rfl

/-- Claim C6 witness: both parts of `c6_resource_lost` at concrete inputs. -/
theorem c6_resource_lost_witness :
    ((metadata_change_request_t.construct (M := Nat) (some ⟨7, 3⟩) true
        = Except.error ()) ↔ true = true) ∧
    (metadata_change_request_t.construct (M := Nat) (some ⟨7, 3⟩) false
        = Except.ok ⟨true, 7, 3⟩) :=
  ⟨(c6_resource_lost (some ⟨7, 3⟩) true (Or.inr rfl)).1,
   (c6_resource_lost (some ⟨7, 3⟩) false (Or.inl rfl)).2 ⟨7, 3⟩ rfl rfl⟩

/-- Claim C7: a successfully constructed change request sends exactly one
Commit over its lifetime — the single `Commit{true, m, result address}` when
`update` is called, or the single `Commit{false, default metadata, null
address}` from the destructor when it never was; never both and never neither
(the destructor abandon runs on every exit path and is disarmed by
`update`). -/
theorem c7_exactly_one_commit {M : Type} [Inhabited M]
    (r : metadata_change_request_t M)
    (hconstructed : r.interest_acquired = true)
    (upd : Option (M × Nat × Option result_msg_t)) :
    (r.lifecycle upd).length = 1 ∧
    (∀ m a w, upd = some (m, a, w) →
      r.lifecycle upd
        = [{ commit := true, metadata := m, result_mailbox := some a }]) ∧
    (upd = none →
      r.lifecycle upd
        = [{ commit := false, metadata := default, result_mailbox := none }]) := by
  refine ⟨?_, ?_, ?_⟩
  · cases upd with
    | none =>
      simp [metadata_change_request_t.lifecycle,
        metadata_change_request_t.destruct, hconstructed]
    | some t =>
      obtain ⟨m, a, w⟩ := t
      simp [metadata_change_request_t.lifecycle,
        metadata_change_request_t.update, metadata_change_request_t.destruct]
  · intro m a w hupd
    subst hupd
    simp [metadata_change_request_t.lifecycle,
      metadata_change_request_t.update, metadata_change_request_t.destruct]
  · intro hupd
    subst hupd
    simp [metadata_change_request_t.lifecycle,
      metadata_change_request_t.destruct, hconstructed]

/-- Claim C7 witness: both lifetimes of `c7_exactly_one_commit` at concrete
inputs. -/
theorem c7_exactly_one_commit_witness :
    ((⟨true, 5, 2⟩ : metadata_change_request_t Nat).lifecycle
        (some (4, 8, some ⟨true⟩))
      = [{ commit := true, metadata := 4, result_mailbox := some 8 }]) ∧
    ((⟨true, 5, 2⟩ : metadata_change_request_t Nat).lifecycle none
      = [{ commit := false, metadata := default, result_mailbox := none }]) :=
  ⟨(c7_exactly_one_commit ⟨true, 5, 2⟩ rfl (some (4, 8, some ⟨true⟩))).2.1
      4 8 (some ⟨true⟩) rfl,
   (c7_exactly_one_commit ⟨true, 5, 2⟩ rfl none).2.2 rfl⟩

/-- Claim C8: the handler destructor requires an empty session registry: with
the registry empty it drains all spawned session and reply tasks and then
releases its state; with any session still registered the guarantee fails
fatally (no destructor event list exists), which is not a recoverable
outcome. -/
theorem c8_dtor_guarantee {M : Type} (h : metadata_change_handler_t M) :
    (h.coro_invalid_conditions = [] →
      h.destruct = some [dtor_event.drain, dtor_event.release]) ∧
    (h.coro_invalid_conditions ≠ [] → h.destruct = none) := by
  constructor
  · intro he
    simp [metadata_change_handler_t.destruct, he]
  · intro hne
    simp [metadata_change_handler_t.destruct, hne]

/-- Claim C8 witness: both branches of `c8_dtor_guarantee` at concrete
handlers. -/
theorem c8_dtor_guarantee_witness :
    ((⟨0, []⟩ : metadata_change_handler_t Nat).destruct
      = some [dtor_event.drain, dtor_event.release]) ∧
    ((⟨0, [(1, false)]⟩ : metadata_change_handler_t Nat).destruct = none) :=
  ⟨(c8_dtor_guarantee ⟨0, []⟩).1 rfl,
   (c8_dtor_guarantee ⟨0, [(1, false)]⟩).2 (by simp)⟩

/-- Claim C9: in an accepted commit the success boolean is latched from the
invalidation flag before the handler-local update runs, and that update then
pulses the flag of the committing session itself — still present in the
registry at that point — yet the spawned Result still carries `true`. -/
theorem c9_success_latched_before_update {M : Type} (join : M → M → M)
    (h : metadata_change_handler_t M) (sid : Nat) (m : M) (a : Option Nat)
    (hmem : sid ∈ h.coro_invalid_conditions.map Prod.fst)
    (hflag : is_pulsed h.coro_invalid_conditions sid = false) :
    (h.handle_commit join sid ⟨true, m, a⟩).2.2 = some (a, true) ∧
    is_pulsed (h.handle_commit join sid
      ⟨true, m, a⟩).1.coro_invalid_conditions sid = true := by
  constructor
  · simp [metadata_change_handler_t.handle_commit, hflag]
  · have hp := is_pulsed_of_all_true
      ((h.update join m).coro_invalid_conditions) sid
      (by rw [metadata_change_handler_t.update_keys]; exact hmem)
      (metadata_change_handler_t.update_flag join h m)
    simpa [metadata_change_handler_t.handle_commit, hflag] using hp

/-- Claim C9 witness: `c9_success_latched_before_update` at a concrete
one-session registry. -/
theorem c9_success_latched_before_update_witness :
    ((⟨0, [(3, false)]⟩ : metadata_change_handler_t Nat).handle_commit Nat.max 3
      ⟨true, 2, some 6⟩).2.2 = some (some 6, true) ∧
    is_pulsed ((⟨0, [(3, false)]⟩ : metadata_change_handler_t Nat).handle_commit
      Nat.max 3 ⟨true, 2, some 6⟩).1.coro_invalid_conditions 3 = true :=
  c9_success_latched_before_update Nat.max ⟨0, [(3, false)]⟩ 3 2 (some 6)
    (by decide) (by decide)

/-- Claim C10: after the construction wait completes, the disconnect check
wins ties — whenever the watcher is pulsed the constructor throws the
resource-lost error, even when an Ack was already received and processed; the
Ack outcome is consulted only when the watcher is not pulsed, and then yields
the captured snapshot and commit address. -/
theorem c10_disconnect_wins_ties {M : Type}
    (ackReceived : Option (ack_msg_t M)) :
    metadata_change_request_t.construct ackReceived true = Except.error () ∧
    (∀ (ack : ack_msg_t M), metadata_change_request_t.construct (some ack) false
      = Except.ok { interest_acquired := true,
                    remote_metadata := ack.metadata,
                    commit_mailbox_address := ack.commit_mailbox_address }) :=
  ⟨rfl, fun _ => rfl⟩
